import Mathlib

/-!
# Verification of the vector-ai-poc matching core

Shallow embedding of the job-matching backend (`src/services/matching_service.py`,
`src/services/candidate_service.py`, `src/services/vector_search.py`,
`src/api/routes.py`, `src/models/{job,candidate}.py`) and proofs about it.

Modelling conventions:
* Python `int` is modelled as `Int`; scores and match scores (`float`) as `ℚ`.
  Float representation error is outside the model; every distance/score value a
  theorem evaluates rounding at is tie-free, where all rounding modes agree.
* The job store (a `dict[str, Job]` in insertion order) is a `List Job`;
  `dict.get` is `List.find?` on the id.  Theorems that need the dict's
  unique-key property take a `Nodup` hypothesis on the ids.
* The external vector index's response (`endpoint.find_neighbors`) is an
  explicit parameter: a list of (id, distance) neighbors.
* Human-readable result strings (notes, suggestions) are modelled as inductive
  values carrying exactly the data interpolated into the Python f-strings.
  Python `set` iteration order is unspecified; sets materialised into such
  strings are modelled in first-occurrence order (no theorem depends on it).
-/

namespace VectorAI

/-- `LocationType` enum from `src/models/job.py`. -/
inductive LocationType
  | remote
  | hybrid
  | onsite
deriving DecidableEq, Repr

/-- `.value` of the `str`-valued enum. -/
def LocationType.value : LocationType → String
  | .remote => "remote"
  | .hybrid => "hybrid"
  | .onsite => "onsite"

/-- `LocationType(s)` constructor call: `some` on a valid value, `none` models
the `ValueError` raised on any other string. -/
def parseLocationType (s : String) : Option LocationType :=
  if s = "remote" then some .remote
  else if s = "hybrid" then some .hybrid
  else if s = "onsite" then some .onsite
  else none

/-- `ExperienceLevel` enum from `src/models/job.py`. -/
inductive ExperienceLevel
  | junior
  | mid
  | senior
  | lead
  | principal
deriving DecidableEq, Repr

/-- `Job` model from `src/models/job.py` (pydantic fields; `benefits`,
`preferred_skills` etc. kept even where unused by the matching core). -/
structure Job where
  id : String
  title : String
  company : String
  description : String
  required_skills : List String
  preferred_skills : List String
  experience_level : ExperienceLevel
  min_years_experience : Int
  location_type : LocationType
  location : Option String
  salary_min : Int
  salary_max : Int
  industry : String
  department : String
  benefits : List String
deriving DecidableEq, Repr

/-- `Candidate` model from `src/models/candidate.py`. -/
structure Candidate where
  id : String
  name : String
  email : String
  summary : String
  skills : List String
  years_experience : Int
  current_title : Option String
  preferred_titles : List String
  preferred_location_types : List LocationType
  preferred_locations : List String
  min_salary : Int
  max_salary : Option Int
  preferred_industries : List String
  declined_job_ids : List String
  accepted_job_id : Option String
deriving DecidableEq, Repr

/-- `str.lower()` (ASCII case folding, which is all the repo's data uses). -/
def strLower (s : String) : String := String.mk (s.data.map Char.toLower)

/-- `needle` occurs at the start of `hay` (chars). -/
def leadsWith : List Char → List Char → Bool
  | [], _ => true
  | _ :: _, [] => false
  | a :: as, b :: bs => a == b && leadsWith as bs

/-- Python's `needle in hay` on strings: contiguous-substring test (chars). -/
def hasChunk (needle : List Char) : List Char → Bool
  | [] => leadsWith needle []
  | b :: bs => leadsWith needle (b :: bs) || hasChunk needle bs

/-- `keyword.lower() in title.lower()` from the title post-filters. -/
def titleHasKeyword (title keyword : String) : Bool :=
  hasChunk (strLower keyword).data (strLower title).data

/-- `any(kw.lower() in job.title.lower() for kw in titles)`. -/
def anyTitleMatch (titles : List String) (title : String) : Bool :=
  titles.any (fun kw => titleHasKeyword title kw)

/-- `len(set(a) & set(b))`: number of distinct strings common to both lists. -/
def skillOverlap (a b : List String) : Nat :=
  (a.dedup.filter (fun s => b.contains s)).length

/-- Round-half-even to an integer, the rounding Python's `round` uses on exact
values.  (`round(x, 2)` with floats also suffers representation error, which is
outside this model; every value the theorems round is tie-free.) -/
def roundHalfEven (q : ℚ) : ℤ :=
  let f := Rat.floor q
  let r := q - f
  if r < 1/2 then f
  else if 1/2 < r then f + 1
  else if f % 2 = 0 then f else f + 1

/-- `round(q, 2)`: round to the nearest multiple of 1/100. -/
def round2 (q : ℚ) : ℚ := (roundHalfEven (q * 100) : ℚ) / 100

theorem roundHalfEven_eq (q : ℚ) :
    roundHalfEven q =
      if q - ⌊q⌋ < 1/2 then ⌊q⌋
      else if 1/2 < q - ⌊q⌋ then ⌊q⌋ + 1
      else if ⌊q⌋ % 2 = 0 then ⌊q⌋ else ⌊q⌋ + 1 := by
  have h : Rat.floor q = ⌊q⌋ := by rw [Rat.floor_def', ← Rat.floor_def]
  simp only [roundHalfEven, h]

example : round2 (1/2 / 10) = 5/100 := by
  rw [round2, roundHalfEven_eq]; norm_num
example : round2 (1 - 1001/1000) = 0 := by
  rw [round2, roundHalfEven_eq]; norm_num
example : round2 (1 - 101/100) = -1/100 := by
  rw [round2, roundHalfEven_eq]; norm_num

/-! ## Job store and result shapes -/

/-- `JobService.get_job`: `self.jobs.get(job_id)` on the insertion-ordered
id-keyed store, modelled as a list looked up by id. -/
def getJob (jobs : List Job) (jobId : String) : Option Job :=
  jobs.find? (fun j => j.id == jobId)

/-- One entry of `matches`: `format_job_for_display(job, include_match_score=True,
match_score=s)` returns the job's display fields plus the score; modelled as the
job record itself plus the score. -/
structure MatchEntry where
  job : Job
  match_score : ℚ
deriving DecidableEq, Repr

/-- Note string attached to a soft-match alternative, as structured data:
`locationNote lt` is "This is {lt.value}, not remote", `titleNote` is
"Different role but remote and meets salary", `requiresNote sk` is
"Requires: {sk}".  Strategy 4's note is never built: it calls
`job.format_salary()`, which `Job` does not define. -/
inductive AltNote
  | locationNote (actual : LocationType)
  | titleNote
  | requiresNote (skill : String)
deriving DecidableEq, Repr

/-- A soft-match alternative; `required_skill` is present only for the
skill-based strategy, matching the Python dict's optional key. -/
structure Alternative where
  job : Job
  relaxed : String
  required_skill : Option String
  note : AltNote
deriving DecidableEq, Repr

/-- Suggestion sentences carrying exactly the data interpolated into the
Python f-strings (sets are materialised in first-occurrence order). -/
inductive Suggestion
  | considerNonRemote (found : Nat) (titles : List String) (otherLocations : List String)
  | considerOtherRoles (titles : List String) (found : Nat)
  | haveQualifications (skillsCited : List String)
  | considerLowerSalary (titles : List String) (topSalary : Int)
deriving DecidableEq, Repr

/-- The `relaxed_criteria` dict: which strategies fired and how many jobs each
surfaced. -/
structure RelaxedCriteria where
  location_relaxed : Option Nat
  title_relaxed : Option Nat
  skill_based : Option Nat
  any_salary : Option Nat
deriving DecidableEq, Repr

/-- Result dictionary of the search operations.  The metadata-only keys
(`note`, `filters_applied`, `preference_update`) are not modelled; absent
optional keys are `none`. -/
structure SearchResult where
  candidate_id : String
  «matches» : List MatchEntry
  total_found : Nat
  filtered_out : Option Nat
  search_type : String
  alternatives : Option (List Alternative)
  suggestions : Option (List Suggestion)
  relaxed_criteria : Option RelaxedCriteria
deriving DecidableEq, Repr

/-! ## Plain fallback search (`_fallback_search`, lines 201-264) -/

/-- Score of one surviving job in `_fallback_search` (lines 233-242). -/
def fallbackScore (cand : Candidate) (job : Job) : ℚ :=
  let skill_overlap : ℚ := skillOverlap cand.skills job.required_skills
  let salary_bonus : ℚ := if job.salary_min ≥ cand.min_salary then 1 else 1/2
  let industry_bonus : ℚ := if cand.preferred_industries.contains job.industry then 1 else 0
  skill_overlap * 2 + salary_bonus + industry_bonus

/-- The filter-and-score loop of `_fallback_search` (lines 217-243): scored
jobs in catalog order, and `filtered_count` (jobs failing the salary or
location hard filter; declined jobs are skipped without counting). -/
def fallbackPass (cand : Candidate) : List Job → List (Job × ℚ) × Nat
  | [] => ([], 0)
  | job :: rest =>
    let out := fallbackPass cand rest
    if job.id ∈ cand.declined_job_ids then out
    else if cand.min_salary > 0 ∧ job.salary_max < cand.min_salary then (out.1, out.2 + 1)
    else if cand.preferred_location_types ≠ [] ∧
        job.location_type ∉ cand.preferred_location_types then (out.1, out.2 + 1)
    else ((job, fallbackScore cand job) :: out.1, out.2)

/-- `scored_jobs.sort(key=lambda x: x[1], reverse=True)`: stable descending
sort on the score (Python's sort is stable, as is `List.mergeSort`). -/
def sortByScoreDesc (l : List (Job × ℚ)) : List (Job × ℚ) :=
  l.mergeSort (fun a b => decide (b.2 ≤ a.2))

/-- `_fallback_search` (lines 201-264). -/
def fallbackSearch (cand : Candidate) (jobs : List Job) (num_results : Nat) : SearchResult :=
  let out := fallbackPass cand jobs
  let sorted := sortByScoreDesc out.1
  let matched_jobs := (sorted.take num_results).map
    (fun js => MatchEntry.mk js.1 (round2 (min (js.2 / 10) 1)))
  { candidate_id := cand.id
    «matches» := matched_jobs
    total_found := matched_jobs.length
    filtered_out := some out.2
    search_type := "fallback"
    alternatives := none
    suggestions := none
    relaxed_criteria := none }

/-! ## Vector search (`vector_search.py` and `_vector_search`) -/

/-- One neighbor returned by the external index endpoint. -/
structure Neighbor where
  id : String
  distance : ℚ
deriving DecidableEq, Repr

/-- `VectorSearchService.search` (vector_search.py lines 246-285): `response`
is the endpoint's raw answer; ids in `filter_ids` are skipped locally (the
Python guard `if filter_ids and result_id in filter_ids` equals membership,
since an empty list contains nothing), then `results[:num_neighbors]`. -/
def vsSearch (response : List Neighbor) (num_neighbors : Nat)
    (filter_ids : List String) : List Neighbor :=
  (response.filter (fun n => !(filter_ids.contains n.id))).take num_neighbors

/-- `_vector_search` (matching_service.py lines 152-199): requests
`num_results + len(declined)` neighbors, then resolves `results[:num_results]`
against the job store; an id that does not resolve is dropped. -/
def vectorSearch (cand : Candidate) (response : List Neighbor) (jobs : List Job)
    (num_results : Nat) : SearchResult :=
  let filter_ids := cand.declined_job_ids
  let results := vsSearch response (num_results + filter_ids.length) filter_ids
  let matched_jobs := (results.take num_results).filterMap
    (fun r => (getJob jobs r.id).map (fun j => MatchEntry.mk j (round2 (1 - r.distance))))
  { candidate_id := cand.id
    «matches» := matched_jobs
    total_found := matched_jobs.length
    filtered_out := none
    search_type := "vector"
    alternatives := none
    suggestions := none
    relaxed_criteria := none }

/-! ## Preference changes and effective filter values -/

/-- The `preference_changes` partial map of `search_with_updated_preferences`. -/
structure PreferenceChanges where
  min_salary : Option Int
  preferred_location_types : Option (List String)
  preferred_industries : Option (List String)
  preferred_titles : Option (List String)
  skills : Option (List String)
deriving DecidableEq, Repr

/-- An empty `preference_changes` dict. -/
def emptyChanges : PreferenceChanges := ⟨none, none, none, none, none⟩

/-- `preference_changes.get("min_salary", candidate.min_salary)`. -/
def effMinSalary (cand : Candidate) (ch : PreferenceChanges) : Int :=
  ch.min_salary.getD cand.min_salary

/-- `preference_changes.get("preferred_location_types", [lt.value for lt in
candidate.preferred_location_types] if candidate.preferred_location_types else
[])`; the conditional default equals the plain map (mapping `[]` gives `[]`). -/
def effLocationTypes (cand : Candidate) (ch : PreferenceChanges) : List String :=
  ch.preferred_location_types.getD (cand.preferred_location_types.map LocationType.value)

/-- `preference_changes.get("preferred_titles", candidate.preferred_titles or [])`. -/
def effTitles (cand : Candidate) (ch : PreferenceChanges) : List String :=
  ch.preferred_titles.getD cand.preferred_titles

/-- `preference_changes.get("preferred_industries", candidate.preferred_industries)`. -/
def effIndustries (cand : Candidate) (ch : PreferenceChanges) : List String :=
  ch.preferred_industries.getD cand.preferred_industries

/-! ## Augmented searches (`_vector_search_augmented`, `_fallback_search_augmented`) -/

/-- The post-filter loop of `_vector_search_augmented` (lines 491-527): walks
the retrieved neighbors, breaking once `num_results` matches are collected,
counting post-filtered jobs; unresolvable ids are skipped without counting. -/
def vsaLoop (jobs : List Job) (locs : List String) (minSal : Int)
    (titles : List String) (num_results : Nat) (acc : List MatchEntry) (fc : Nat) :
    List Neighbor → List MatchEntry × Nat
  | [] => (acc, fc)
  | r :: rest =>
    if num_results ≤ acc.length then (acc, fc)
    else
      match getJob jobs r.id with
      | none => vsaLoop jobs locs minSal titles num_results acc fc rest
      | some job =>
        if locs ≠ [] ∧ job.location_type.value ∉ locs then
          vsaLoop jobs locs minSal titles num_results acc (fc + 1) rest
        else if minSal > 0 ∧ job.salary_max < minSal then
          vsaLoop jobs locs minSal titles num_results acc (fc + 1) rest
        else if titles ≠ [] ∧ anyTitleMatch titles job.title = false then
          vsaLoop jobs locs minSal titles num_results acc (fc + 1) rest
        else
          vsaLoop jobs locs minSal titles num_results
            (acc ++ [MatchEntry.mk job (round2 (1 - r.distance))]) fc rest

/-- `_vector_search_augmented` (lines 444-540); the `filters_applied` metadata
dict is not modelled. -/
def vectorSearchAugmented (cand : Candidate) (ch : PreferenceChanges)
    (response : List Neighbor) (jobs : List Job) (num_results : Nat) : SearchResult :=
  let filter_ids := cand.declined_job_ids
  let fetch_count := (num_results + filter_ids.length) * 5
  let results := vsSearch response fetch_count filter_ids
  let out := vsaLoop jobs (effLocationTypes cand ch) (effMinSalary cand ch)
    (effTitles cand ch) num_results [] 0 results
  { candidate_id := cand.id
    «matches» := out.1
    total_found := out.1.length
    filtered_out := some out.2
    search_type := "vector_augmented"
    alternatives := none
    suggestions := none
    relaxed_criteria := none }

/-- Score block of `_fallback_search_augmented` (lines 601-617): note the
bonuses differ from the plain fallback (3 for salary, 2 for industry, plus a
flat 3 whenever a title filter was in force). -/
def fallbackAugScore (cand : Candidate) (ch : PreferenceChanges) (job : Job) : ℚ :=
  let skill_overlap : ℚ := skillOverlap cand.skills job.required_skills
  skill_overlap * 2
    + (if job.salary_min ≥ effMinSalary cand ch then 3 else 0)
    + (if (effIndustries cand ch).contains job.industry then 2 else 0)
    + (if effTitles cand ch ≠ [] then 3 else 0)

/-- The filter-and-score loop of `_fallback_search_augmented` (lines 573-619):
location filter first, then salary, then title keywords. -/
def fallbackAugPass (cand : Candidate) (ch : PreferenceChanges) :
    List Job → List (Job × ℚ) × Nat
  | [] => ([], 0)
  | job :: rest =>
    let out := fallbackAugPass cand ch rest
    if job.id ∈ cand.declined_job_ids then out
    else if effLocationTypes cand ch ≠ [] ∧
        job.location_type.value ∉ effLocationTypes cand ch then (out.1, out.2 + 1)
    else if effMinSalary cand ch > 0 ∧ job.salary_max < effMinSalary cand ch then
      (out.1, out.2 + 1)
    else if effTitles cand ch ≠ [] ∧
        anyTitleMatch (effTitles cand ch) job.title = false then (out.1, out.2 + 1)
    else ((job, fallbackAugScore cand ch job) :: out.1, out.2)

/-- `_fallback_search_augmented` (lines 542-643). -/
def fallbackSearchAugmented (cand : Candidate) (ch : PreferenceChanges)
    (jobs : List Job) (num_results : Nat) : SearchResult :=
  let out := fallbackAugPass cand ch jobs
  let sorted := sortByScoreDesc out.1
  let matched_jobs := (sorted.take num_results).map
    (fun js => MatchEntry.mk js.1 (round2 (min (js.2 / 10) 1)))
  { candidate_id := cand.id
    «matches» := matched_jobs
    total_found := matched_jobs.length
    filtered_out := some out.2
    search_type := "fallback_augmented"
    alternatives := none
    suggestions := none
    relaxed_criteria := none }

/-! ## Soft-match relaxation (`_soft_match_search`, lines 645-805) -/

/-- Strategy 3's inner skill scan (lines 745-750): the first required skill
whose lowercase form contains, or is contained in, a requested title keyword
(the `break` keeps only the first hit per job). -/
def firstMatchingSkill (titles : List String) (skills : List String) : Option String :=
  skills.find? (fun sk =>
    titles.any (fun t =>
      hasChunk (strLower t).data (strLower sk).data
        || hasChunk (strLower sk).data (strLower t).data))

/-- `salary_jobs.sort(key=lambda j: j.salary_max, reverse=True)`. -/
def sortBySalaryDesc (l : List Job) : List Job :=
  l.mergeSort (fun a b => decide (b.salary_max ≤ a.salary_max))

/-- The one exception the soft-match search can raise: `job.format_salary()`
(line 792) on a `Job` that defines no such method is an `AttributeError`. -/
inductive SoftErr
  | attributeError
deriving DecidableEq, Repr

/-- The dictionary `_soft_match_search` returns (lines 801-805). -/
structure SoftResult where
  alternatives : List Alternative
  suggestions : List Suggestion
  relaxed_criteria : RelaxedCriteria
deriving DecidableEq, Repr

/-- Strategy 1's candidate list, `location_relaxed_jobs` (lines 681-693):
guarded by a non-empty title request; keeps non-declined jobs meeting the
salary floor whose title matches a requested keyword. -/
def softS1 (cand : Candidate) (ch : PreferenceChanges) (jobs : List Job) :
    List Job :=
  if effTitles cand ch ≠ [] then
    jobs.filter (fun job =>
      !(cand.declined_job_ids.contains job.id)
        && !(decide (job.salary_max < effMinSalary cand ch))
        && anyTitleMatch (effTitles cand ch) job.title)
  else []

/-- Strategy 1's alternatives (lines 695-702). -/
def softAlts1 (cand : Candidate) (ch : PreferenceChanges) (jobs : List Job)
    (num_results : Nat) : List Alternative :=
  if softS1 cand ch jobs ≠ [] then
    ((softS1 cand ch jobs).take num_results).map
      (fun job => ⟨job, "location", none, .locationNote job.location_type⟩)
  else []

/-- Strategy 1's suggestion (lines 703-708), emitted only when the candidate
declared location preferences. -/
def softSugg1 (cand : Candidate) (ch : PreferenceChanges) (jobs : List Job) :
    List Suggestion :=
  if softS1 cand ch jobs ≠ [] ∧ effLocationTypes cand ch ≠ [] then
    [.considerNonRemote (softS1 cand ch jobs).length (effTitles cand ch)
      (((softS1 cand ch jobs).map (fun j => j.location_type.value)).dedup)]
  else []

/-- Strategy 2's candidate list, `title_relaxed_jobs` (lines 711-719): runs
only if nothing fired yet and locations are declared. -/
def softS2 (cand : Candidate) (ch : PreferenceChanges) (jobs : List Job)
    (num_results : Nat) : List Job :=
  if softAlts1 cand ch jobs num_results = [] ∧ effLocationTypes cand ch ≠ [] then
    jobs.filter (fun job =>
      !(cand.declined_job_ids.contains job.id)
        && !(decide (job.salary_max < effMinSalary cand ch))
        && (effLocationTypes cand ch).contains job.location_type.value)
  else []

/-- Strategy 2's alternatives (lines 721-728). -/
def softAlts2 (cand : Candidate) (ch : PreferenceChanges) (jobs : List Job)
    (num_results : Nat) : List Alternative :=
  if softS2 cand ch jobs num_results ≠ [] then
    ((softS2 cand ch jobs num_results).take num_results).map
      (fun job => ⟨job, "title", none, .titleNote⟩)
  else []

/-- Strategy 2's suggestion (lines 729-733). -/
def softSugg2 (cand : Candidate) (ch : PreferenceChanges) (jobs : List Job)
    (num_results : Nat) : List Suggestion :=
  if softS2 cand ch jobs num_results ≠ [] then
    [.considerOtherRoles (effTitles cand ch) (softS2 cand ch jobs num_results).length]
  else []

/-- Strategy 3's scan, `skill_based_jobs` (lines 736-750): runs whenever
titles are requested (regardless of earlier strategies); each non-declined job
contributes its first required skill overlapping a requested title keyword. -/
def softS3 (cand : Candidate) (ch : PreferenceChanges) (jobs : List Job) :
    List (Job × String) :=
  if effTitles cand ch ≠ [] then
    jobs.filterMap (fun job =>
      if cand.declined_job_ids.contains job.id then none
      else (firstMatchingSkill (effTitles cand ch) job.required_skills).map
        (fun sk => (job, sk)))
  else []

/-- Strategy 3 fires only when it found pairs and nothing fired yet
(line 752). -/
def softFires3 (cand : Candidate) (ch : PreferenceChanges) (jobs : List Job)
    (num_results : Nat) : Prop :=
  softS3 cand ch jobs ≠ []
    ∧ softAlts1 cand ch jobs num_results ++ softAlts2 cand ch jobs num_results = []

instance (cand : Candidate) (ch : PreferenceChanges) (jobs : List Job)
    (num_results : Nat) : Decidable (softFires3 cand ch jobs num_results) := by
  unfold softFires3; infer_instance

/-- Strategy 3's alternatives (lines 752-760). -/
def softAlts3 (cand : Candidate) (ch : PreferenceChanges) (jobs : List Job)
    (num_results : Nat) : List Alternative :=
  if softFires3 cand ch jobs num_results then
    ((softS3 cand ch jobs).take num_results).map
      (fun p => ⟨p.1, "skill_based", some p.2, .requiresNote p.2⟩)
  else []

/-- Strategy 3's suggestion (lines 762-767): cites the first three distinct
matching skills (`set` materialised in first-occurrence order). -/
def softSugg3 (cand : Candidate) (ch : PreferenceChanges) (jobs : List Job)
    (num_results : Nat) : List Suggestion :=
  if softFires3 cand ch jobs num_results
      ∧ ((softS3 cand ch jobs).map Prod.snd).dedup ≠ [] then
    [.haveQualifications ((((softS3 cand ch jobs).map Prod.snd).dedup).take 3)]
  else []

/-- Alternatives accumulated by strategies 1-3 (at most one block is
non-empty, by the firing guards). -/
def softAlts123 (cand : Candidate) (ch : PreferenceChanges) (jobs : List Job)
    (num_results : Nat) : List Alternative :=
  softAlts1 cand ch jobs num_results ++ softAlts2 cand ch jobs num_results
    ++ softAlts3 cand ch jobs num_results

/-- Strategy 4's candidate list, `salary_jobs` (lines 770-781): any salary,
title filter kept when present; runs only when strategies 1-3 yielded
nothing. -/
def softS4 (cand : Candidate) (ch : PreferenceChanges) (jobs : List Job)
    (num_results : Nat) : List Job :=
  if softAlts123 cand ch jobs num_results = [] then
    jobs.filter (fun job =>
      !(cand.declined_job_ids.contains job.id)
        && ((effTitles cand ch).isEmpty
          || anyTitleMatch (effTitles cand ch) job.title))
  else []

/-- `salary_jobs[0].salary_max if salary_jobs else 0` (line 795), read after
the descending sort. -/
def softTopSalary (cand : Candidate) (ch : PreferenceChanges) (jobs : List Job)
    (num_results : Nat) : Int :=
  match sortBySalaryDesc (softS4 cand ch jobs num_results) with
  | [] => 0
  | j :: _ => j.salary_max

/-- `_soft_match_search` (lines 645-805), strategies in source order; each
strategy's pieces are the `soft*` definitions above.  Strategy 4 raises
`AttributeError` as soon as it formats its first alternative: line 792 calls
`job.format_salary()` and `Job` defines no such attribute.  (With
`num_results = 0` the slice `salary_jobs[:0]` is empty, the crashing loop body
never runs, and the suggestion cites `salary_jobs[0].salary_max` after the
descending sort.) -/
def softMatchSearch (cand : Candidate) (ch : PreferenceChanges) (jobs : List Job)
    (num_results : Nat) : Except SoftErr SoftResult :=
  let rc1 : Option Nat :=
    if softS1 cand ch jobs ≠ [] then some (softS1 cand ch jobs).length else none
  let rc2 : Option Nat :=
    if softS2 cand ch jobs num_results ≠ [] then
      some (softS2 cand ch jobs num_results).length
    else none
  let rc3 : Option Nat :=
    if softFires3 cand ch jobs num_results then
      some (softS3 cand ch jobs).length
    else none
  let suggestions := softSugg1 cand ch jobs ++ softSugg2 cand ch jobs num_results
    ++ softSugg3 cand ch jobs num_results
  let alternatives := softAlts123 cand ch jobs num_results
  if softS4 cand ch jobs num_results = [] then
    .ok ⟨alternatives, suggestions, ⟨rc1, rc2, rc3, none⟩⟩
  else if num_results = 0 then
    .ok ⟨alternatives,
      suggestions ++ [.considerLowerSalary (effTitles cand ch)
        (softTopSalary cand ch jobs num_results)],
      ⟨rc1, rc2, rc3, some (softS4 cand ch jobs num_results).length⟩⟩
  else
    .error .attributeError

/-- Lines 366-374 of `search_with_updated_preferences`: on a strict result
with `total_found == 0`, run the soft-match search and merge its output. -/
def mergeSoftIfEmpty (strict : SearchResult) (cand : Candidate)
    (ch : PreferenceChanges) (jobs : List Job) (num_results : Nat) :
    Except SoftErr SearchResult :=
  if strict.total_found = 0 then
    (softMatchSearch cand ch jobs num_results).map (fun soft =>
      { strict with
          alternatives := some soft.alternatives
          suggestions := some soft.suggestions
          relaxed_criteria := some soft.relaxed_criteria })
  else .ok strict

/-- `search_with_updated_preferences` when no vector endpoint is configured
(strict search is `_fallback_search_augmented`); the `preference_update`
metadata key is not modelled. -/
def searchWithUpdatedPreferencesFallback (cand : Candidate) (ch : PreferenceChanges)
    (jobs : List Job) (num_results : Nat) : Except SoftErr SearchResult :=
  mergeSoftIfEmpty (fallbackSearchAugmented cand ch jobs num_results)
    cand ch jobs num_results

/-- `search_with_updated_preferences` on the vector branch. -/
def searchWithUpdatedPreferencesVector (cand : Candidate) (ch : PreferenceChanges)
    (response : List Neighbor) (jobs : List Job) (num_results : Nat) :
    Except SoftErr SearchResult :=
  mergeSoftIfEmpty (vectorSearchAugmented cand ch response jobs num_results)
    cand ch jobs num_results

/-! ## Candidate store (`candidate_service.py`) -/

/-- `CandidateService.update_candidate`: `self._candidates_cache[candidate.id]
= candidate`.  A dict keeps an existing key's position and appends a new key;
the id-keyed store is a list, so an existing id is replaced in place. -/
def updateCandidate (store : List Candidate) (c : Candidate) : List Candidate :=
  if store.any (fun x => x.id == c.id) then
    store.map (fun x => if x.id == c.id then c else x)
  else store ++ [c]

/-- `CandidateService.get_candidate`: `self.candidates.get(candidate_id)`. -/
def getCandidate (store : List Candidate) (cid : String) : Option Candidate :=
  store.find? (fun c => c.id == cid)

/-- The keyword arguments of `update_preferences` (lines 104-113); `None`
means the argument was not provided. -/
structure PrefUpdate where
  min_salary : Option Int
  preferred_titles : Option (List String)
  preferred_location_types : Option (List String)
  preferred_industries : Option (List String)
  preferred_locations : Option (List String)
  skills : Option (List String)
deriving DecidableEq, Repr

/-- An update providing no fields. -/
def emptyPrefUpdate : PrefUpdate := ⟨none, none, none, none, none, none⟩

/-- The `ValueError` raised by `LocationType(lt)` on an unknown string. -/
inductive ValError
  | valueError
deriving DecidableEq, Repr

/-- Fields applied after the location-type conversion of `update_preferences`
(lines 148-161); shared tail of both conversion outcomes.  The Python
`updated_fields` strings interpolate the new values; modelled by the field
names alone. -/
def updatePrefsTail (store : List Candidate) (c : Candidate) (fields : List String)
    (u : PrefUpdate) : List Candidate × Bool × List String :=
  let c4 := match u.preferred_industries with
    | some v => { c with preferred_industries := v } | none => c
  let f4 := fields ++ (match u.preferred_industries with
    | some _ => ["preferred_industries"] | none => [])
  let c5 := match u.preferred_locations with
    | some v => { c4 with preferred_locations := v } | none => c4
  let f5 := f4 ++ (match u.preferred_locations with
    | some _ => ["preferred_locations"] | none => [])
  let c6 := match u.skills with
    | some v => { c5 with skills := v } | none => c5
  let f6 := f5 ++ (match u.skills with | some _ => ["skills"] | none => [])
  (updateCandidate store c6, true, f6)

/-- `CandidateService.update_preferences` (lines 104-161).  `LocationType(lt)`
on an unknown string raises `ValueError`, which this method does not catch.
(In Python the raise leaves the earlier field assignments visible on the
cached candidate object without persisting them; no claim concerns the
post-raise cache, so the error outcome carries no state.) -/
def updatePreferences (store : List Candidate) (cid : String) (u : PrefUpdate) :
    Except ValError (List Candidate × Bool × List String) :=
  match getCandidate store cid with
  | none => .ok (store, false, [])
  | some c0 =>
    let c1 := match u.min_salary with
      | some v => { c0 with min_salary := v } | none => c0
    let f1 : List String := match u.min_salary with
      | some _ => ["min_salary"] | none => []
    let c2 := match u.preferred_titles with
      | some v => { c1 with preferred_titles := v } | none => c1
    let f2 := f1 ++ (match u.preferred_titles with
      | some _ => ["preferred_titles"] | none => [])
    match u.preferred_location_types with
    | none => .ok (updatePrefsTail store c2 f2 u)
    | some lts =>
      match lts.mapM parseLocationType with
      | none => .error .valueError
      | some parsed =>
        .ok (updatePrefsTail store { c2 with preferred_location_types := parsed }
          (f2 ++ ["preferred_location_types"]) u)

/-- The append-if-absent loop of `decline_jobs` (lines 195-197). -/
def addDeclines (declined : List String) : List String → List String
  | [] => declined
  | j :: rest =>
    addDeclines (if declined.contains j then declined else declined ++ [j]) rest

/-- `CandidateService.decline_jobs` (lines 181-200). -/
def declineJobs (store : List Candidate) (cid : String) (jobIds : List String) :
    List Candidate × Bool :=
  match getCandidate store cid with
  | none => (store, false)
  | some c =>
    (updateCandidate store
      { c with declined_job_ids := addDeclines c.declined_job_ids jobIds }, true)

/-! ## Route-layer preference persistence (`routes.py`) -/

/-- The `changes` dict handled by `persist_preference_changes` (its producer
`extract_preferences_from_message` emits exactly these keys). -/
structure PersistChanges where
  min_salary : Option Int
  preferred_location_types : Option (List String)
  preferred_titles : Option (List String)
  preferred_industries : Option (List String)
  add_skill : Option String
deriving DecidableEq, Repr

/-- `if not changes:` — the dict is empty. -/
def PersistChanges.isEmpty (ch : PersistChanges) : Bool :=
  ch.min_salary.isNone && ch.preferred_location_types.isNone
    && ch.preferred_titles.isNone && ch.preferred_industries.isNone
    && ch.add_skill.isNone

/-- `list(set(existing) | set(new))`; Python's set order is unspecified,
modelled in first-occurrence order (no theorem depends on the order). -/
def setUnion (existing new : List String) : List String :=
  existing.dedup ++ new.dedup.filter (fun s => !(existing.contains s))

/-- `persist_preference_changes` (routes.py lines 235-299).  The location-type
conversion is wrapped in `try/except ValueError`: an invalid string skips that
field only, and the following fields are still applied. -/
def persistPreferenceChanges (store : List Candidate) (cid : String)
    (ch : PersistChanges) : List Candidate × Bool :=
  if ch.isEmpty then (store, false)
  else
    match getCandidate store cid with
    | none => (store, false)
    | some c0 =>
      let s1 : Candidate × Bool := match ch.min_salary with
        | some v => ({ c0 with min_salary := v }, true)
        | none => (c0, false)
      let s2 : Candidate × Bool := match ch.preferred_location_types with
        | some lts =>
          match lts.mapM parseLocationType with
          | some parsed => ({ s1.1 with preferred_location_types := parsed }, true)
          | none => s1
        | none => s1
      let s3 : Candidate × Bool := match ch.preferred_titles with
        | some ts =>
          ({ s2.1 with preferred_titles := setUnion s2.1.preferred_titles ts }, true)
        | none => s2
      let s4 : Candidate × Bool := match ch.preferred_industries with
        | some inds =>
          ({ s3.1 with preferred_industries := setUnion s3.1.preferred_industries inds },
            true)
        | none => s3
      let s5 : Candidate × Bool := match ch.add_skill with
        | some sk =>
          if s4.1.skills.contains sk then s4
          else ({ s4.1 with skills := s4.1.skills ++ [sk] }, true)
        | none => s4
      if s5.2 then (updateCandidate store s5.1, true) else (store, false)

/-! ## Derived predicates and shared lemmas -/

/-- A job survives the plain fallback path's hard filters (lines 218-231). -/
def fallbackKeeps (cand : Candidate) (job : Job) : Prop :=
  job.id ∉ cand.declined_job_ids
    ∧ ¬(cand.min_salary > 0 ∧ job.salary_max < cand.min_salary)
    ∧ ¬(cand.preferred_location_types ≠ [] ∧
        job.location_type ∉ cand.preferred_location_types)

instance (cand : Candidate) (job : Job) : Decidable (fallbackKeeps cand job) := by
  unfold fallbackKeeps; infer_instance

/-- A job survives the augmented strict post-filters (location, salary floor,
title keyword) for the given effective filter values. -/
def augKeeps (locs : List String) (minSal : Int) (titles : List String)
    (job : Job) : Prop :=
  ¬(locs ≠ [] ∧ job.location_type.value ∉ locs)
    ∧ ¬(minSal > 0 ∧ job.salary_max < minSal)
    ∧ ¬(titles ≠ [] ∧ anyTitleMatch titles job.title = false)

instance (locs : List String) (minSal : Int) (titles : List String) (job : Job) :
    Decidable (augKeeps locs minSal titles job) := by
  unfold augKeeps; infer_instance

/-- The score formula the specification states for the fallback paths:
2·overlap + salary bonus (1 or 1/2) + industry bonus (1 or 0) + title bonus
(3 when a required-title keyword matched, augmented path only). -/
def specScore (minSal : Int) (industries : List String) (titleBonus : Bool)
    (skills : List String) (job : Job) : ℚ :=
  (skillOverlap skills job.required_skills : ℚ) * 2
    + (if job.salary_min ≥ minSal then 1 else 1/2)
    + (if industries.contains job.industry then 1 else 0)
    + (if titleBonus then 3 else 0)

theorem fallbackPass_fst_mem (cand : Candidate) (jobs : List Job) (j : Job) (s : ℚ) :
    (j, s) ∈ (fallbackPass cand jobs).1 ↔
      j ∈ jobs ∧ fallbackKeeps cand j ∧ s = fallbackScore cand j := by
  induction jobs with
  | nil => simp [fallbackPass]
  | cons job rest ih =>
    by_cases h1 : job.id ∈ cand.declined_job_ids
    · rw [show fallbackPass cand (job :: rest) = fallbackPass cand rest by
        simp [fallbackPass, h1]]
      rw [ih]
      constructor
      · rintro ⟨hj, hk, hs⟩; exact ⟨List.mem_cons_of_mem _ hj, hk, hs⟩
      · rintro ⟨hj, hk, hs⟩
        rcases List.mem_cons.mp hj with rfl | hj
        · exact absurd h1 hk.1
        · exact ⟨hj, hk, hs⟩
    · by_cases h2 : cand.min_salary > 0 ∧ job.salary_max < cand.min_salary
      · rw [show (fallbackPass cand (job :: rest)).1 = (fallbackPass cand rest).1 by
          simp [fallbackPass, h1, h2]]
        rw [ih]
        constructor
        · rintro ⟨hj, hk, hs⟩; exact ⟨List.mem_cons_of_mem _ hj, hk, hs⟩
        · rintro ⟨hj, hk, hs⟩
          rcases List.mem_cons.mp hj with rfl | hj
          · exact absurd h2 hk.2.1
          · exact ⟨hj, hk, hs⟩
      · by_cases h3 : cand.preferred_location_types ≠ [] ∧
            job.location_type ∉ cand.preferred_location_types
        · rw [show (fallbackPass cand (job :: rest)).1 = (fallbackPass cand rest).1 by
            simp only [fallbackPass]
            rw [if_neg h1, if_neg h2, if_pos h3]]
          rw [ih]
          constructor
          · rintro ⟨hj, hk, hs⟩; exact ⟨List.mem_cons_of_mem _ hj, hk, hs⟩
          · rintro ⟨hj, hk, hs⟩
            rcases List.mem_cons.mp hj with rfl | hj
            · exact absurd h3 hk.2.2
            · exact ⟨hj, hk, hs⟩
        · rw [show (fallbackPass cand (job :: rest)).1
              = (job, fallbackScore cand job) :: (fallbackPass cand rest).1 by
            simp only [fallbackPass]
            rw [if_neg h1, if_neg h2, if_neg h3]]
          simp only [List.mem_cons, ih, Prod.mk.injEq]
          constructor
          · rintro (⟨rfl, rfl⟩ | ⟨hj, hk, hs⟩)
            · exact ⟨Or.inl rfl, ⟨h1, h2, h3⟩, rfl⟩
            · exact ⟨Or.inr hj, hk, hs⟩
          · rintro ⟨rfl | hj, hk, hs⟩
            · exact Or.inl ⟨rfl, hs⟩
            · exact Or.inr ⟨hj, hk, hs⟩

theorem fallbackAugPass_fst_mem (cand : Candidate) (ch : PreferenceChanges)
    (jobs : List Job) (j : Job) (s : ℚ) :
    (j, s) ∈ (fallbackAugPass cand ch jobs).1 ↔
      j ∈ jobs
        ∧ j.id ∉ cand.declined_job_ids
        ∧ augKeeps (effLocationTypes cand ch) (effMinSalary cand ch)
            (effTitles cand ch) j
        ∧ s = fallbackAugScore cand ch j := by
  induction jobs with
  | nil => simp [fallbackAugPass]
  | cons job rest ih =>
    by_cases h1 : job.id ∈ cand.declined_job_ids
    · rw [show fallbackAugPass cand ch (job :: rest) = fallbackAugPass cand ch rest by
        simp [fallbackAugPass, h1]]
      rw [ih]
      constructor
      · rintro ⟨hj, hd, hk, hs⟩; exact ⟨List.mem_cons_of_mem _ hj, hd, hk, hs⟩
      · rintro ⟨hj, hd, hk, hs⟩
        rcases List.mem_cons.mp hj with rfl | hj
        · exact absurd h1 hd
        · exact ⟨hj, hd, hk, hs⟩
    · by_cases h2 : effLocationTypes cand ch ≠ [] ∧
          job.location_type.value ∉ effLocationTypes cand ch
      · rw [show (fallbackAugPass cand ch (job :: rest)).1
            = (fallbackAugPass cand ch rest).1 by
          simp only [fallbackAugPass]
          rw [if_neg h1, if_pos h2]]
        rw [ih]
        constructor
        · rintro ⟨hj, hd, hk, hs⟩; exact ⟨List.mem_cons_of_mem _ hj, hd, hk, hs⟩
        · rintro ⟨hj, hd, hk, hs⟩
          rcases List.mem_cons.mp hj with rfl | hj
          · exact absurd h2 hk.1
          · exact ⟨hj, hd, hk, hs⟩
      · by_cases h3 : effMinSalary cand ch > 0 ∧ job.salary_max < effMinSalary cand ch
        · rw [show (fallbackAugPass cand ch (job :: rest)).1
              = (fallbackAugPass cand ch rest).1 by
            simp only [fallbackAugPass]
            rw [if_neg h1, if_neg h2, if_pos h3]]
          rw [ih]
          constructor
          · rintro ⟨hj, hd, hk, hs⟩; exact ⟨List.mem_cons_of_mem _ hj, hd, hk, hs⟩
          · rintro ⟨hj, hd, hk, hs⟩
            rcases List.mem_cons.mp hj with rfl | hj
            · exact absurd h3 hk.2.1
            · exact ⟨hj, hd, hk, hs⟩
        · by_cases h4 : effTitles cand ch ≠ [] ∧
              anyTitleMatch (effTitles cand ch) job.title = false
          · rw [show (fallbackAugPass cand ch (job :: rest)).1
                = (fallbackAugPass cand ch rest).1 by
              simp only [fallbackAugPass]
              rw [if_neg h1, if_neg h2, if_neg h3, if_pos h4]]
            rw [ih]
            constructor
            · rintro ⟨hj, hd, hk, hs⟩; exact ⟨List.mem_cons_of_mem _ hj, hd, hk, hs⟩
            · rintro ⟨hj, hd, hk, hs⟩
              rcases List.mem_cons.mp hj with rfl | hj
              · exact absurd h4 hk.2.2
              · exact ⟨hj, hd, hk, hs⟩
          · rw [show (fallbackAugPass cand ch (job :: rest)).1
                = (job, fallbackAugScore cand ch job) :: (fallbackAugPass cand ch rest).1 by
              simp only [fallbackAugPass]
              rw [if_neg h1, if_neg h2, if_neg h3, if_neg h4]]
            simp only [List.mem_cons, ih, Prod.mk.injEq]
            constructor
            · rintro (⟨rfl, rfl⟩ | ⟨hj, hd, hk, hs⟩)
              · exact ⟨Or.inl rfl, h1, ⟨h2, h3, h4⟩, rfl⟩
              · exact ⟨Or.inr hj, hd, hk, hs⟩
            · rintro ⟨rfl | hj, hd, hk, hs⟩
              · exact Or.inl ⟨rfl, hs⟩
              · exact Or.inr ⟨hj, hd, hk, hs⟩

theorem fallbackScore_eq_specScore (cand : Candidate) (j : Job) :
    fallbackScore cand j
      = specScore cand.min_salary cand.preferred_industries false cand.skills j := by
  simp [fallbackScore, specScore]

/-! ## Concrete fixtures for witnesses and counterexamples -/

/-- Job-record constructor for concrete fixtures (non-matching fields fixed). -/
def mkJob (id title : String) (lt : LocationType) (smin smax : Int)
    (industry : String) (skills : List String) : Job :=
  { id := id, title := title, company := "Acme", description := "desc"
    required_skills := skills, preferred_skills := [], experience_level := .mid
    min_years_experience := 0, location_type := lt, location := none
    salary_min := smin, salary_max := smax, industry := industry
    department := "Ops", benefits := [] }

/-- Candidate-record constructor for concrete fixtures. -/
def mkCand (id : String) (skills titles : List String) (lts : List LocationType)
    (minSal : Int) (inds declined : List String) : Candidate :=
  { id := id, name := "Ada", email := "a@x", summary := "sum", skills := skills
    years_experience := 3, current_title := none, preferred_titles := titles
    preferred_location_types := lts, preferred_locations := []
    min_salary := minSal, max_salary := none, preferred_industries := inds
    declined_job_ids := declined, accepted_job_id := none }

/-! ## C1 -/

/-- C1 (amended): for every job surviving the hard filters, the plain fallback
path scores it exactly as the claim states (2·|skills ∩ required| + salary
bonus 1 or 1/2 + industry bonus 1 or 0, no title bonus), but the augmented
fallback path instead scores 2·overlap + (3 if salary_min ≥ effective
min_salary else 0) + (2 if industry preferred else 0) + (3 whenever a title
filter was in force) — not the claimed 1/0.5, 1/0 and matched-title bonuses. -/
theorem c1_fallback_score_formula (cand : Candidate) (ch : PreferenceChanges)
    (jobs : List Job) (j : Job) (s : ℚ) :
    ((j, s) ∈ (fallbackPass cand jobs).1 ↔
      j ∈ jobs ∧ fallbackKeeps cand j
        ∧ s = specScore cand.min_salary cand.preferred_industries false cand.skills j)
    ∧ ((j, s) ∈ (fallbackAugPass cand ch jobs).1 ↔
      j ∈ jobs ∧ j.id ∉ cand.declined_job_ids
        ∧ augKeeps (effLocationTypes cand ch) (effMinSalary cand ch)
            (effTitles cand ch) j
        ∧ s = (skillOverlap cand.skills j.required_skills : ℚ) * 2
            + (if j.salary_min ≥ effMinSalary cand ch then 3 else 0)
            + (if (effIndustries cand ch).contains j.industry then 2 else 0)
            + (if effTitles cand ch ≠ [] then 3 else 0)) := by
  constructor
  · rw [fallbackPass_fst_mem, fallbackScore_eq_specScore]
  · rw [fallbackAugPass_fst_mem]
    have : fallbackAugScore cand ch j
        = (skillOverlap cand.skills j.required_skills : ℚ) * 2
            + (if j.salary_min ≥ effMinSalary cand ch then 3 else 0)
            + (if (effIndustries cand ch).contains j.industry then 2 else 0)
            + (if effTitles cand ch ≠ [] then 3 else 0) := rfl
    rw [this]

/-- C1 counterexample: a candidate with min_salary 150000 and no skill,
industry or title preferences, and a job paying 100000-200000.  The job
survives the augmented hard filters; the claim's formula gives it score 1/2
(salary bonus 0.5), but `_fallback_search_augmented` scores it 0 — the
augmented path has no 0.5 below-salary bonus. -/
theorem c1_counterexample :
    (fallbackAugPass (mkCand "c1" [] [] [] 150000 [] []) emptyChanges
        [mkJob "j1" "Engineer" .remote 100000 200000 "Retail" []]).1
      = [(mkJob "j1" "Engineer" .remote 100000 200000 "Retail" [], 0)]
    ∧ specScore
        (effMinSalary (mkCand "c1" [] [] [] 150000 [] []) emptyChanges)
        (effIndustries (mkCand "c1" [] [] [] 150000 [] []) emptyChanges)
        false (mkCand "c1" [] [] [] 150000 [] []).skills
        (mkJob "j1" "Engineer" .remote 100000 200000 "Retail" []) = 1/2
    ∧ (0 : ℚ) ≠ 1/2 := by
  refine ⟨?_, ?_, by norm_num⟩
  · simp only [fallbackAugPass, fallbackAugScore, effLocationTypes, effMinSalary,
      effTitles, effIndustries, emptyChanges, mkCand, mkJob, skillOverlap]
    norm_num
  · simp only [specScore, effMinSalary, effIndustries, emptyChanges, mkCand, mkJob,
      skillOverlap]
    norm_num

/-! ## Rounding lemmas -/

theorem le_roundHalfEven (q : ℚ) : ⌊q⌋ ≤ roundHalfEven q := by
  rw [roundHalfEven_eq]
  split_ifs <;> omega

theorem roundHalfEven_le_ceil (q : ℚ) : roundHalfEven q ≤ ⌈q⌉ := by
  have hfc : ⌊q⌋ ≤ ⌈q⌉ := Int.floor_le_ceil q
  have hlt : ¬(q - ⌊q⌋ < 1/2) → ⌊q⌋ + 1 ≤ ⌈q⌉ := by
    intro h
    have h2 : (⌊q⌋ : ℚ) < q := by
      have : (0 : ℚ) < 1/2 := by norm_num
      nlinarith [not_lt.mp h]
    have h3 := Int.lt_ceil.mpr h2
    omega
  rw [roundHalfEven_eq]
  split_ifs with h1 h2 h3
  · exact hfc
  · exact hlt h1
  · exact hfc
  · exact hlt h1

theorem round2_eval (n : ℤ) : round2 ((n : ℚ) / 100) = (n : ℚ) / 100 := by
  have h : ((n : ℚ) / 100) * 100 = (n : ℚ) := by field_simp
  rw [round2, roundHalfEven_eq, h, Int.floor_intCast]
  norm_num

theorem round2_nonneg (q : ℚ) (h : 0 ≤ q) : 0 ≤ round2 q := by
  have h1 : (0 : ℤ) ≤ ⌊q * 100⌋ := Int.floor_nonneg.mpr (by positivity)
  have h2 := le_roundHalfEven (q * 100)
  rw [round2]
  have : (0 : ℤ) ≤ roundHalfEven (q * 100) := le_trans h1 h2
  positivity

theorem round2_le_one (q : ℚ) (h : q ≤ 1) : round2 q ≤ 1 := by
  have h1 : ⌈q * 100⌉ ≤ 100 := Int.ceil_le.mpr (by push_cast; nlinarith)
  have h2 := roundHalfEven_le_ceil (q * 100)
  rw [round2]
  have h3 : roundHalfEven (q * 100) ≤ 100 := le_trans h2 h1
  have h4 : (roundHalfEven (q * 100) : ℚ) ≤ 100 := by exact_mod_cast h3
  linarith

theorem round2_nonpos (q : ℚ) (h : q ≤ 0) : round2 q ≤ 0 := by
  have h1 : ⌈q * 100⌉ ≤ 0 := Int.ceil_le.mpr (by push_cast; nlinarith)
  have h2 := roundHalfEven_le_ceil (q * 100)
  have h3 : (roundHalfEven (q * 100) : ℚ) ≤ 0 := by exact_mod_cast le_trans h2 h1
  rw [round2]
  linarith

theorem round2_neg (q : ℚ) (h : q ≤ -1/100) : round2 q < 0 := by
  have h1 : ⌈q * 100⌉ ≤ -1 := Int.ceil_le.mpr (by push_cast; nlinarith)
  have h2 := roundHalfEven_le_ceil (q * 100)
  have h3 : (roundHalfEven (q * 100) : ℚ) ≤ -1 := by exact_mod_cast le_trans h2 h1
  rw [round2]
  linarith

/-! ## C4 -/

theorem sortByScoreDesc_mem (l : List (Job × ℚ)) (x : Job × ℚ) :
    x ∈ sortByScoreDesc l ↔ x ∈ l :=
  (List.mergeSort_perm l _).mem_iff

theorem fallbackSearch_matches_mem (cand : Candidate) (jobs : List Job)
    (num : Nat) (entry : MatchEntry)
    (h : entry ∈ (fallbackSearch cand jobs num).«matches») :
    ∃ j s, (j, s) ∈ (fallbackPass cand jobs).1
      ∧ entry = MatchEntry.mk j (round2 (min (s / 10) 1)) := by
  simp only [fallbackSearch, List.mem_map] at h
  obtain ⟨js, hjs, rfl⟩ := h
  exact ⟨js.1, js.2, (sortByScoreDesc_mem _ _).mp (List.mem_of_mem_take hjs), rfl⟩

/-- C4 (amended): the fallback path's matches never include a declined job nor
one whose location type is outside the candidate's non-empty preferred set;
and when `min_salary > 0` never one with `salary_max < min_salary`.  (When
`min_salary = 0` the salary filter is skipped entirely, so a job with negative
`salary_max` — type-valid, as salaries are unconstrained ints — can appear:
see the counterexample.) -/
theorem c4_fallback_filter_invariant (cand : Candidate) (jobs : List Job)
    (num : Nat) (entry : MatchEntry)
    (h : entry ∈ (fallbackSearch cand jobs num).«matches») :
    entry.job.id ∉ cand.declined_job_ids
    ∧ (cand.preferred_location_types ≠ [] →
        entry.job.location_type ∈ cand.preferred_location_types)
    ∧ (cand.min_salary > 0 → entry.job.salary_max ≥ cand.min_salary) := by
  obtain ⟨j, s, hmem, rfl⟩ := fallbackSearch_matches_mem cand jobs num entry h
  dsimp only
  obtain ⟨-, hk, -⟩ := (fallbackPass_fst_mem cand jobs j s).mp hmem
  obtain ⟨hd, hsal, hloc⟩ := hk
  refine ⟨hd, ?_, ?_⟩
  · intro hne
    by_contra hnotin
    exact hloc ⟨hne, hnotin⟩
  · intro hpos
    by_contra hlt
    exact hsal ⟨hpos, by omega⟩

theorem c4_witness :
    (mkJob "j4" "T" .remote 150000 200000 "Tech" []).id
        ∉ (mkCand "c4" [] [] [.remote] 150000 [] ["jx"]).declined_job_ids
    ∧ ((mkCand "c4" [] [] [.remote] 150000 [] ["jx"]).preferred_location_types ≠ [] →
        (mkJob "j4" "T" .remote 150000 200000 "Tech" []).location_type
          ∈ (mkCand "c4" [] [] [.remote] 150000 [] ["jx"]).preferred_location_types)
    ∧ ((mkCand "c4" [] [] [.remote] 150000 [] ["jx"]).min_salary > 0 →
        (mkJob "j4" "T" .remote 150000 200000 "Tech" []).salary_max
          ≥ (mkCand "c4" [] [] [.remote] 150000 [] ["jx"]).min_salary) := by
  have hscore : fallbackScore (mkCand "c4" [] [] [.remote] 150000 [] ["jx"])
      (mkJob "j4" "T" .remote 150000 200000 "Tech" []) = 1 := by
    simp only [fallbackScore, mkCand, mkJob, skillOverlap]
    norm_num
  have hpass : (fallbackPass (mkCand "c4" [] [] [.remote] 150000 [] ["jx"])
      [mkJob "j4" "T" .remote 150000 200000 "Tech" []]).1
      = [(mkJob "j4" "T" .remote 150000 200000 "Tech" [], 1)] := by
    rw [show fallbackPass (mkCand "c4" [] [] [.remote] 150000 [] ["jx"])
        [mkJob "j4" "T" .remote 150000 200000 "Tech" []]
        = ([(mkJob "j4" "T" .remote 150000 200000 "Tech" [],
            fallbackScore (mkCand "c4" [] [] [.remote] 150000 [] ["jx"])
              (mkJob "j4" "T" .remote 150000 200000 "Tech" []))], 0) by
      simp only [fallbackPass]
      norm_num [mkCand, mkJob]
      decide]
    rw [hscore]
  have hmem : (MatchEntry.mk (mkJob "j4" "T" .remote 150000 200000 "Tech" [])
        (round2 (min ((1 : ℚ) / 10) 1)))
      ∈ (fallbackSearch (mkCand "c4" [] [] [.remote] 150000 [] ["jx"])
          [mkJob "j4" "T" .remote 150000 200000 "Tech" []] 3).«matches» := by
    simp only [fallbackSearch, hpass, sortByScoreDesc, List.mergeSort]
    simp
  exact c4_fallback_filter_invariant _ _ 3 _ hmem

/-! ## C8 -/

theorem getJob_some_id (jobs : List Job) (jid : String) (j : Job)
    (h : getJob jobs jid = some j) : j.id = jid := by
  have := List.find?_some h
  simpa using this

theorem fallbackScore_nonneg (cand : Candidate) (j : Job) :
    0 ≤ fallbackScore cand j := by
  unfold fallbackScore
  split_ifs <;> positivity

theorem fallbackAugScore_nonneg (cand : Candidate) (ch : PreferenceChanges)
    (j : Job) : 0 ≤ fallbackAugScore cand ch j := by
  unfold fallbackAugScore
  split_ifs <;> positivity

theorem round2_clamped_mem (s : ℚ) (h : 0 ≤ s) :
    0 ≤ round2 (min (s / 10) 1) ∧ round2 (min (s / 10) 1) ≤ 1 :=
  ⟨round2_nonneg _ (le_min (by positivity) (by norm_num)),
    round2_le_one _ (min_le_right _ _)⟩

theorem fallbackAugSearch_matches_mem (cand : Candidate) (ch : PreferenceChanges)
    (jobs : List Job) (num : Nat) (entry : MatchEntry)
    (h : entry ∈ (fallbackSearchAugmented cand ch jobs num).«matches») :
    ∃ j s, (j, s) ∈ (fallbackAugPass cand ch jobs).1
      ∧ entry = MatchEntry.mk j (round2 (min (s / 10) 1)) := by
  simp only [fallbackSearchAugmented, List.mem_map] at h
  obtain ⟨js, hjs, rfl⟩ := h
  exact ⟨js.1, js.2, (sortByScoreDesc_mem _ _).mp (List.mem_of_mem_take hjs), rfl⟩

theorem vectorSearch_matches_mem (cand : Candidate) (response : List Neighbor)
    (jobs : List Job) (num : Nat) (entry : MatchEntry)
    (h : entry ∈ (vectorSearch cand response jobs num).«matches») :
    ∃ r, r ∈ response ∧ !(cand.declined_job_ids.contains r.id)
      ∧ getJob jobs r.id = some entry.job
      ∧ entry.match_score = round2 (1 - r.distance) := by
  simp only [vectorSearch, List.mem_filterMap] at h
  obtain ⟨r, hr, hmap⟩ := h
  rw [Option.map_eq_some'] at hmap
  obtain ⟨j, hj, rfl⟩ := hmap
  have hr2 := List.mem_of_mem_take hr
  rw [vsSearch] at hr2
  have hr3 := List.mem_of_mem_take hr2
  have hmf := List.mem_filter.mp hr3
  exact ⟨r, hmf.1, hmf.2, hj, rfl⟩

/-- C8 (amended): every fallback-path match (plain or augmented) has
match_score = round(min(score/10, 1), 2), which always lies in [0, 1]; every
plain vector-path match scores round(1 − distance, 2) of its neighbor's
distance, unclamped — but a distance greater than 1 only forces the rounded
score to be non-positive (a distance in (1, 1.005] rounds to 0); any distance
of at least 1.01 gives a strictly negative score. -/
theorem c8_match_score_bounds (cand : Candidate) (ch : PreferenceChanges)
    (response : List Neighbor) (jobs : List Job) (num : Nat)
    (entry entry2 entry3 : MatchEntry) (d : ℚ) :
    (entry ∈ (fallbackSearch cand jobs num).«matches» →
      (∃ j s, (j, s) ∈ (fallbackPass cand jobs).1
        ∧ entry = MatchEntry.mk j (round2 (min (s / 10) 1)))
      ∧ 0 ≤ entry.match_score ∧ entry.match_score ≤ 1)
    ∧ (entry2 ∈ (fallbackSearchAugmented cand ch jobs num).«matches» →
      (∃ j s, (j, s) ∈ (fallbackAugPass cand ch jobs).1
        ∧ entry2 = MatchEntry.mk j (round2 (min (s / 10) 1)))
      ∧ 0 ≤ entry2.match_score ∧ entry2.match_score ≤ 1)
    ∧ (entry3 ∈ (vectorSearch cand response jobs num).«matches» →
      ∃ r, r ∈ response ∧ getJob jobs r.id = some entry3.job
        ∧ entry3.match_score = round2 (1 - r.distance))
    ∧ (1 < d → round2 (1 - d) ≤ 0)
    ∧ (101/100 ≤ d → round2 (1 - d) < 0) := by
  refine ⟨?_, ?_, ?_, ?_, ?_⟩
  · intro h
    obtain ⟨j, s, hmem, rfl⟩ := fallbackSearch_matches_mem cand jobs num entry h
    have hs : 0 ≤ s := by
      obtain ⟨-, -, rfl⟩ := (fallbackPass_fst_mem cand jobs j s).mp hmem
      exact fallbackScore_nonneg cand j
    exact ⟨⟨j, s, hmem, rfl⟩, round2_clamped_mem s hs⟩
  · intro h
    obtain ⟨j, s, hmem, rfl⟩ := fallbackAugSearch_matches_mem cand ch jobs num entry2 h
    have hs : 0 ≤ s := by
      obtain ⟨-, -, -, rfl⟩ := (fallbackAugPass_fst_mem cand ch jobs j s).mp hmem
      exact fallbackAugScore_nonneg cand ch j
    exact ⟨⟨j, s, hmem, rfl⟩, round2_clamped_mem s hs⟩
  · intro h
    obtain ⟨r, hr, -, hj, hsc⟩ := vectorSearch_matches_mem cand response jobs num entry3 h
    exact ⟨r, hr, hj, hsc⟩
  · intro h
    exact round2_nonpos _ (by linarith)
  · intro h
    exact round2_neg _ (by linarith)

/-- C8 counterexample: the claim says a distance greater than 1 yields a
negative vector-path score, but distance 1.001 gives round(1 − 1.001, 2) =
round(−0.001, 2) = 0, which is not negative. -/
theorem c8_counterexample :
    (1 : ℚ) < 1001/1000
    ∧ round2 (1 - 1001/1000) = 0
    ∧ ¬(round2 (1 - 1001/1000) < 0) := by
  refine ⟨by norm_num, ?_, ?_⟩
  · rw [round2, roundHalfEven_eq]; norm_num
  · rw [round2, roundHalfEven_eq]; norm_num

/-! ## C10 -/

/-- The plain vector path's matches as claim C10 describes them: the first
`num_results` neighbor ids *that resolve to a job*.  Refinement definition
written from the claim's words, to compare with `vectorSearch`, which instead
truncates to `num_results` neighbors first and then drops unresolvable ids. -/
def specVectorMatches (response : List Neighbor) (jobs : List Job)
    (num_results : Nat) : List Job :=
  (response.filterMap (fun r => getJob jobs r.id)).take num_results

/-- C10 (amended): the plain vector path applies no salary, location-type or
title post-filter — every resolvable neighbor among the first `num_results`
retrieved ones is matched, whatever the candidate's preferences; the result
carries no `filtered_out` count; and the whole result is unchanged under any
change of the candidate's preference fields (only `id` and
`declined_job_ids` enter the path).  However its matches are the resolvable
jobs among the first `num_results` neighbors — an unresolvable id shrinks the
match list rather than being replaced by a later neighbor (see the
counterexample). -/
theorem c10_vector_path_unfiltered (cand cand' : Candidate)
    (response : List Neighbor) (jobs : List Job) (num : Nat) :
    (∀ r ∈ (vsSearch response (num + cand.declined_job_ids.length)
        cand.declined_job_ids).take num,
      ∀ j, getJob jobs r.id = some j →
        MatchEntry.mk j (round2 (1 - r.distance))
          ∈ (vectorSearch cand response jobs num).«matches»)
    ∧ (vectorSearch cand response jobs num).filtered_out = none
    ∧ (cand'.id = cand.id → cand'.declined_job_ids = cand.declined_job_ids →
        vectorSearch cand' response jobs num = vectorSearch cand response jobs num) := by
  refine ⟨?_, rfl, ?_⟩
  · intro r hr j hj
    simp only [vectorSearch, List.mem_filterMap]
    exact ⟨r, hr, by rw [hj]; rfl⟩
  · intro hid hdecl
    simp only [vectorSearch, hid, hdecl]

/-- C10 counterexample: with jobs j1, j2 in the store and neighbors
[j1, missing, j2] (ascending distance), `num_results = 2`: the code resolves
only `results[:2] = [j1, missing]` and returns the single match j1, while the
claim's "first num_results neighbor ids that resolve to a job" would give
[j1, j2]. -/
theorem c10_counterexample :
    ((vectorSearch (mkCand "c10" [] [] [] 0 [] [])
        [⟨"j1", 1/10⟩, ⟨"missing", 2/10⟩, ⟨"j2", 3/10⟩]
        [mkJob "j1" "A" .remote 1 2 "I" [], mkJob "j2" "B" .remote 1 2 "I" []]
        2).«matches».map (fun e => e.job.id)) = ["j1"]
    ∧ (specVectorMatches [⟨"j1", 1/10⟩, ⟨"missing", 2/10⟩, ⟨"j2", 3/10⟩]
        [mkJob "j1" "A" .remote 1 2 "I" [], mkJob "j2" "B" .remote 1 2 "I" []]
        2).map Job.id = ["j1", "j2"]
    ∧ (["j1"] : List String) ≠ ["j1", "j2"] := by
  refine ⟨?_, ?_, by decide⟩
  · simp [vectorSearch, vsSearch, getJob, mkJob, mkCand, List.filterMap_cons]
  · simp [specVectorMatches, getJob, mkJob, List.filterMap_cons]

/-! ## C2 -/

theorem vsaLoop_mem (jobs : List Job) (locs : List String) (minSal : Int)
    (titles : List String) (num : Nat) :
    ∀ (rs : List Neighbor) (acc : List MatchEntry) (fc : Nat) (e : MatchEntry),
      e ∈ (vsaLoop jobs locs minSal titles num acc fc rs).1 →
      e ∈ acc ∨ ∃ r ∈ rs, getJob jobs r.id = some e.job
        ∧ augKeeps locs minSal titles e.job
        ∧ e.match_score = round2 (1 - r.distance) := by
  intro rs
  induction rs with
  | nil => intro acc fc e h; exact Or.inl h
  | cons r rest ih =>
    intro acc fc e h
    rw [vsaLoop] at h
    by_cases hn : num ≤ acc.length
    · rw [if_pos hn] at h
      exact Or.inl h
    · rw [if_neg hn] at h
      rcases hg : getJob jobs r.id with - | job
      · rw [hg] at h
        dsimp only at h
        rcases ih acc fc e h with h1 | ⟨r', hr', hrest⟩
        · exact Or.inl h1
        · exact Or.inr ⟨r', List.mem_cons_of_mem _ hr', hrest⟩
      · rw [hg] at h
        dsimp only at h
        by_cases h2 : locs ≠ [] ∧ job.location_type.value ∉ locs
        · rw [if_pos h2] at h
          rcases ih acc (fc + 1) e h with h1 | ⟨r', hr', hrest⟩
          · exact Or.inl h1
          · exact Or.inr ⟨r', List.mem_cons_of_mem _ hr', hrest⟩
        · rw [if_neg h2] at h
          by_cases h3 : minSal > 0 ∧ job.salary_max < minSal
          · rw [if_pos h3] at h
            rcases ih acc (fc + 1) e h with h1 | ⟨r', hr', hrest⟩
            · exact Or.inl h1
            · exact Or.inr ⟨r', List.mem_cons_of_mem _ hr', hrest⟩
          · rw [if_neg h3] at h
            by_cases h4 : titles ≠ [] ∧ anyTitleMatch titles job.title = false
            · rw [if_pos h4] at h
              rcases ih acc (fc + 1) e h with h1 | ⟨r', hr', hrest⟩
              · exact Or.inl h1
              · exact Or.inr ⟨r', List.mem_cons_of_mem _ hr', hrest⟩
            · rw [if_neg h4] at h
              rcases ih _ fc e h with h1 | ⟨r', hr', hrest⟩
              · rcases List.mem_append.mp h1 with h5 | h5
                · exact Or.inl h5
                · have he : e = MatchEntry.mk job (round2 (1 - r.distance)) := by
                    simpa using h5
                  subst he
                  exact Or.inr ⟨r, List.mem_cons_self r rest, hg, ⟨h2, h3, h4⟩, rfl⟩
              · exact Or.inr ⟨r', List.mem_cons_of_mem _ hr', hrest⟩

theorem vectorSearchAugmented_matches_mem (cand : Candidate)
    (ch : PreferenceChanges) (response : List Neighbor) (jobs : List Job)
    (num : Nat) (entry : MatchEntry)
    (h : entry ∈ (vectorSearchAugmented cand ch response jobs num).«matches») :
    ∃ r, r ∈ response ∧ !(cand.declined_job_ids.contains r.id)
      ∧ getJob jobs r.id = some entry.job
      ∧ augKeeps (effLocationTypes cand ch) (effMinSalary cand ch)
          (effTitles cand ch) entry.job
      ∧ entry.match_score = round2 (1 - r.distance) := by
  simp only [vectorSearchAugmented] at h
  rcases vsaLoop_mem jobs _ _ _ num _ [] 0 entry h with h1 | ⟨r, hr, hg, hk, hs⟩
  · simp at h1
  · rw [vsSearch] at hr
    have hr2 := List.mem_of_mem_take hr
    have hmf := List.mem_filter.mp hr2
    exact ⟨r, hmf.1, hmf.2, hg, hk, hs⟩

/-- C2: the strict post-filters of `searchWithUpdatedPreferences` use the
override from `preference_changes` for each field present there and the stored
candidate preference otherwise (`effMinSalary`, `effLocationTypes`,
`effTitles` are exactly `preference_changes.get(field, stored)`), on both the
vector-augmented and fallback-augmented paths; in particular with
`preference_changes = {min_salary: 200000}` over a stored min_salary of
180000, the effective salary floor is 200000, so a job with salary_max 190000
is excluded and one with 210000 is matched, on both paths. -/
theorem c2_override_post_filters (cand : Candidate) (ch : PreferenceChanges)
    (response : List Neighbor) (jobs : List Job) (num : Nat)
    (entry entry2 : MatchEntry) :
    (entry ∈ (vectorSearchAugmented cand ch response jobs num).«matches» →
      augKeeps (effLocationTypes cand ch) (effMinSalary cand ch)
        (effTitles cand ch) entry.job)
    ∧ (entry2 ∈ (fallbackSearchAugmented cand ch jobs num).«matches» →
      augKeeps (effLocationTypes cand ch) (effMinSalary cand ch)
        (effTitles cand ch) entry2.job)
    ∧ effMinSalary (mkCand "c2" [] [] [] 180000 [] [])
        ⟨some 200000, none, none, none, none⟩ = 200000
    ∧ ((fallbackSearchAugmented (mkCand "c2" [] [] [] 180000 [] [])
          ⟨some 200000, none, none, none, none⟩
          [mkJob "j190" "T" .remote 150000 190000 "I" [],
            mkJob "j210" "T" .remote 150000 210000 "I" []]
          3).«matches».map (fun e => e.job.id)) = ["j210"]
    ∧ ((vectorSearchAugmented (mkCand "c2" [] [] [] 180000 [] [])
          ⟨some 200000, none, none, none, none⟩
          [⟨"j190", 1/10⟩, ⟨"j210", 2/10⟩]
          [mkJob "j190" "T" .remote 150000 190000 "I" [],
            mkJob "j210" "T" .remote 150000 210000 "I" []]
          3).«matches».map (fun e => e.job.id)) = ["j210"] := by
  refine ⟨?_, ?_, rfl, ?_, ?_⟩
  · intro h
    obtain ⟨r, -, -, -, hk, -⟩ :=
      vectorSearchAugmented_matches_mem cand ch response jobs num entry h
    exact hk
  · intro h
    obtain ⟨j, s, hmem, rfl⟩ :=
      fallbackAugSearch_matches_mem cand ch jobs num entry2 h
    obtain ⟨-, -, hk, -⟩ := (fallbackAugPass_fst_mem cand ch jobs j s).mp hmem
    exact hk
  · simp only [fallbackSearchAugmented, fallbackAugPass, fallbackAugScore,
      effLocationTypes, effMinSalary, effTitles, effIndustries, mkCand, mkJob,
      sortByScoreDesc]
    norm_num [List.mergeSort, skillOverlap]
  · simp [vectorSearchAugmented, vsSearch, vsaLoop, effLocationTypes,
      effMinSalary, effTitles, getJob, mkCand, mkJob, List.find?]

/-! ## C5 -/

theorem softAlts123_not_declined (cand : Candidate) (ch : PreferenceChanges)
    (jobs : List Job) (num : Nat) (alt : Alternative)
    (h : alt ∈ softAlts123 cand ch jobs num) :
    alt.job.id ∉ cand.declined_job_ids := by
  rcases List.mem_append.mp h with h12 | h3
  · rcases List.mem_append.mp h12 with h1 | h2
    · rw [softAlts1] at h1
      split_ifs at h1 with hg
      · obtain ⟨job, hjob, rfl⟩ := List.mem_map.mp h1
        have hj := List.mem_of_mem_take hjob
        rw [softS1] at hj
        split_ifs at hj with ht
        · have hc := (List.mem_filter.mp hj).2
          simp at hc
          exact hc.1.1
        · simp at hj
      · simp at h1
    · rw [softAlts2] at h2
      split_ifs at h2 with hg
      · obtain ⟨job, hjob, rfl⟩ := List.mem_map.mp h2
        have hj := List.mem_of_mem_take hjob
        rw [softS2] at hj
        split_ifs at hj with ht
        · have hc := (List.mem_filter.mp hj).2
          simp at hc
          exact hc.1.1
        · simp at hj
      · simp at h2
  · rw [softAlts3] at h3
    split_ifs at h3 with hg
    · obtain ⟨p, hp, rfl⟩ := List.mem_map.mp h3
      have hj := List.mem_of_mem_take hp
      rw [softS3] at hj
      split_ifs at hj with ht
      · obtain ⟨job, -, hmap⟩ := List.mem_filterMap.mp hj
        by_cases hd : cand.declined_job_ids.contains job.id
        · rw [if_pos hd] at hmap
          exact absurd hmap (by simp)
        · rw [if_neg hd] at hmap
          rw [Option.map_eq_some'] at hmap
          obtain ⟨sk, -, rfl⟩ := hmap
          simpa using hd
      · simp at hj
    · simp at h3

theorem softMatchSearch_ok_alternatives (cand : Candidate)
    (ch : PreferenceChanges) (jobs : List Job) (num : Nat) (soft : SoftResult)
    (h : softMatchSearch cand ch jobs num = .ok soft) :
    soft.alternatives = softAlts123 cand ch jobs num := by
  simp only [softMatchSearch] at h
  split_ifs at h <;> cases h <;> rfl

/-- C5: a declined job id never appears in the output of any search path: the
plain vector path, the augmented vector path, the plain fallback path, the
augmented fallback path (all exclude declined ids locally — the plain vector
paths via the local skip inside `VectorSearchService.search`, not only via an
index-side exclusion), nor in any alternative of a successful soft-match
relaxation (all four strategies skip declined ids). -/
theorem c5_declined_never_returned (cand : Candidate) (ch : PreferenceChanges)
    (response response2 : List Neighbor) (jobs : List Job) (num : Nat)
    (e1 e2 e3 e4 : MatchEntry) (soft : SoftResult) (alt : Alternative) :
    (e1 ∈ (vectorSearch cand response jobs num).«matches» →
      e1.job.id ∉ cand.declined_job_ids)
    ∧ (e2 ∈ (vectorSearchAugmented cand ch response2 jobs num).«matches» →
      e2.job.id ∉ cand.declined_job_ids)
    ∧ (e3 ∈ (fallbackSearch cand jobs num).«matches» →
      e3.job.id ∉ cand.declined_job_ids)
    ∧ (e4 ∈ (fallbackSearchAugmented cand ch jobs num).«matches» →
      e4.job.id ∉ cand.declined_job_ids)
    ∧ (softMatchSearch cand ch jobs num = .ok soft → alt ∈ soft.alternatives →
      alt.job.id ∉ cand.declined_job_ids) := by
  refine ⟨?_, ?_, ?_, ?_, ?_⟩
  · intro h
    obtain ⟨r, -, hnd, hg, -⟩ := vectorSearch_matches_mem cand response jobs num e1 h
    rw [getJob_some_id jobs r.id e1.job hg]
    simpa using hnd
  · intro h
    obtain ⟨r, -, hnd, hg, -, -⟩ :=
      vectorSearchAugmented_matches_mem cand ch response2 jobs num e2 h
    rw [getJob_some_id jobs r.id e2.job hg]
    simpa using hnd
  · intro h
    obtain ⟨j, s, hmem, rfl⟩ := fallbackSearch_matches_mem cand jobs num e3 h
    exact ((fallbackPass_fst_mem cand jobs j s).mp hmem).2.1.1
  · intro h
    obtain ⟨j, s, hmem, rfl⟩ := fallbackAugSearch_matches_mem cand ch jobs num e4 h
    exact ((fallbackAugPass_fst_mem cand ch jobs j s).mp hmem).2.1
  · intro hok halt
    rw [softMatchSearch_ok_alternatives cand ch jobs num soft hok] at halt
    exact softAlts123_not_declined cand ch jobs num alt halt

/-! ## C3 and the C4 counterexample -/

/-- C4 counterexample: with min_salary = 0 the salary hard filter is skipped
entirely (`candidate.min_salary > 0 and ...`), so a job with negative
salary_max — type-valid, salaries being unconstrained ints — is matched even
though its salary_max is below the candidate's min_salary, refuting the
unguarded "never salary_max < min_salary" reading of the claim. -/
theorem c4_counterexample :
    (MatchEntry.mk (mkJob "jneg" "T" .remote (-2) (-1) "I" [])
        (round2 (min ((1/2 : ℚ) / 10) 1)))
      ∈ (fallbackSearch (mkCand "c4x" [] [] [] 0 [] [])
          [mkJob "jneg" "T" .remote (-2) (-1) "I" []] 3).«matches»
    ∧ (mkJob "jneg" "T" .remote (-2) (-1) "I" []).salary_max
        < (mkCand "c4x" [] [] [] 0 [] []).min_salary := by
  constructor
  · have hscore : fallbackScore (mkCand "c4x" [] [] [] 0 [] [])
        (mkJob "jneg" "T" .remote (-2) (-1) "I" []) = 1/2 := by
      simp only [fallbackScore, mkCand, mkJob, skillOverlap]
      norm_num
    have hpass : (fallbackPass (mkCand "c4x" [] [] [] 0 [] [])
        [mkJob "jneg" "T" .remote (-2) (-1) "I" []]).1
        = [(mkJob "jneg" "T" .remote (-2) (-1) "I" [], 1/2)] := by
      rw [show fallbackPass (mkCand "c4x" [] [] [] 0 [] [])
          [mkJob "jneg" "T" .remote (-2) (-1) "I" []]
          = ([(mkJob "jneg" "T" .remote (-2) (-1) "I" [],
              fallbackScore (mkCand "c4x" [] [] [] 0 [] [])
                (mkJob "jneg" "T" .remote (-2) (-1) "I" []))], 0) by
        simp only [fallbackPass]
        norm_num [mkCand, mkJob]]
      rw [hscore]
    simp only [fallbackSearch, hpass, sortByScoreDesc, List.mergeSort]
    simp
  · decide

/-- C3 (code bug): when strict search finds nothing and relaxation reaches
strategy 4 with at least one candidate job and `num_results > 0`, building the
first alternative's note calls `job.format_salary()` — a method `Job` does not
define — so `_soft_match_search`, and with it the whole
`search_with_updated_preferences` call, raises `AttributeError` instead of
returning the salary-relaxed alternatives the claim (and the spec's own
scenario) describes.  Concretely: a candidate demanding 300000 over a catalog
whose only job tops out at 200000 gets a strict `total_found = 0`, strategies
1-3 are skipped (no titles, no location preferences), and strategy 4 crashes. -/
theorem c3_strategy4_raises :
    (fallbackSearchAugmented (mkCand "c3" [] [] [] 300000 [] []) emptyChanges
        [mkJob "j3" "T" .remote 100000 200000 "I" []] 3).total_found = 0
    ∧ softMatchSearch (mkCand "c3" [] [] [] 300000 [] []) emptyChanges
        [mkJob "j3" "T" .remote 100000 200000 "I" []] 3
        = .error .attributeError
    ∧ searchWithUpdatedPreferencesFallback (mkCand "c3" [] [] [] 300000 [] [])
        emptyChanges [mkJob "j3" "T" .remote 100000 200000 "I" []] 3
        = .error .attributeError := by
  have hpass : fallbackAugPass (mkCand "c3" [] [] [] 300000 [] []) emptyChanges
      [mkJob "j3" "T" .remote 100000 200000 "I" []] = ([], 1) := by decide
  have h0 : (fallbackSearchAugmented (mkCand "c3" [] [] [] 300000 [] []) emptyChanges
      [mkJob "j3" "T" .remote 100000 200000 "I" []] 3).total_found = 0 := by
    simp [fallbackSearchAugmented, hpass, sortByScoreDesc]
  have hsoft : softMatchSearch (mkCand "c3" [] [] [] 300000 [] []) emptyChanges
      [mkJob "j3" "T" .remote 100000 200000 "I" []] 3
      = .error .attributeError := rfl
  refine ⟨h0, hsoft, ?_⟩
  rw [searchWithUpdatedPreferencesFallback, mergeSoftIfEmpty, if_pos h0, hsoft]
  rfl

/-! ## C9 -/

/-- `CandidateService.get_declined_job_ids` (lines 202-214). -/
def getDeclinedJobIds (store : List Candidate) (cid : String) : List String :=
  match getCandidate store cid with
  | none => []
  | some c => c.declined_job_ids

theorem getCandidate_some_id (store : List Candidate) (cid : String)
    (c : Candidate) (h : getCandidate store cid = some c) : c.id = cid := by
  have := List.find?_some h
  simpa using this

theorem getCandidate_mem (store : List Candidate) (cid : String) (c : Candidate)
    (h : getCandidate store cid = some c) : c ∈ store :=
  List.mem_of_find?_eq_some h

theorem getCandidate_updateCandidate (store : List Candidate) (cid : String)
    (c c' : Candidate) (hfind : getCandidate store cid = some c)
    (hid : c'.id = cid) : getCandidate (updateCandidate store c') cid = some c' := by
  have hcid : c.id = cid := getCandidate_some_id store cid c hfind
  have hany : store.any (fun x => x.id == c'.id) = true :=
    List.any_eq_true.mpr ⟨c, getCandidate_mem store cid c hfind, by simp [hcid, hid]⟩
  rw [updateCandidate, if_pos hany]
  clear hany
  revert hfind
  induction store with
  | nil => intro hfind; simp [getCandidate] at hfind
  | cons x xs ih =>
    intro hfind
    by_cases hx : x.id = cid
    · rw [List.map_cons]
      rw [show (if x.id == c'.id then c' else x) = c' by simp [hx, hid]]
      rw [getCandidate, List.find?_cons_of_pos _ (by simp [hid])]
    · rw [getCandidate, List.find?_cons_of_neg _ (by simp [hx])] at hfind
      rw [List.map_cons]
      rw [show (if x.id == c'.id then c' else x) = x by simp [hx, hid]]
      rw [getCandidate, List.find?_cons_of_neg _ (by simp [hx])]
      exact ih hfind

theorem declineJobs_fst (store : List Candidate) (cid : String)
    (ids : List String) (c : Candidate) (h : getCandidate store cid = some c) :
    (declineJobs store cid ids).1
      = updateCandidate store
          { c with declined_job_ids := addDeclines c.declined_job_ids ids } := by
  rw [declineJobs, h]

theorem getDeclined_update (store : List Candidate) (cid : String)
    (c c' : Candidate) (h : getCandidate store cid = some c) (hid : c'.id = cid) :
    getDeclinedJobIds (updateCandidate store c') cid = c'.declined_job_ids := by
  rw [getDeclinedJobIds, getCandidate_updateCandidate store cid c c' h hid]

theorem addDeclines_sngl (l : List String) (j : String) :
    addDeclines l [j] = if l.contains j then l else l ++ [j] := rfl

theorem addDeclines_nodup (ids : List String) :
    ∀ l : List String, l.Nodup → (addDeclines l ids).Nodup := by
  induction ids with
  | nil => intro l h; exact h
  | cons j rest ih =>
    intro l h
    rw [addDeclines]
    apply ih
    by_cases hc : l.contains j
    · rwa [if_pos hc]
    · rw [if_neg hc]
      have hj : j ∉ l := by simpa using hc
      simp [List.nodup_append, h, hj]

theorem addDeclines_count_single (l : List String) (j : String)
    (h : l.count j ≤ 1) : (addDeclines l [j]).count j = 1 := by
  rw [addDeclines_sngl]
  by_cases hc : l.contains j
  · rw [if_pos hc]
    have hm : j ∈ l := by simpa using hc
    have h1 : 0 < l.count j := List.count_pos_iff.mpr hm
    omega
  · rw [if_neg hc]
    have hm : j ∉ l := by simpa using hc
    rw [List.count_append, List.count_eq_zero.mpr hm]
    simp

theorem addDeclines_of_mem (l : List String) (j : String) (h : j ∈ l) :
    addDeclines l [j] = l := by
  rw [addDeclines_sngl, if_pos (by simpa using h)]

/-- C9: declining jobs never introduces a duplicate into declined_job_ids (a
no-duplicates list stays duplicate-free under any decline call), and declining
the same job id twice leaves exactly one occurrence of it. -/
theorem c9_decline_idempotent (store : List Candidate) (cid j : String)
    (ids : List String) (c : Candidate) (h : getCandidate store cid = some c) :
    (c.declined_job_ids.Nodup →
      (getDeclinedJobIds ((declineJobs store cid ids).1) cid).Nodup)
    ∧ (c.declined_job_ids.count j ≤ 1 →
      (getDeclinedJobIds
          ((declineJobs ((declineJobs store cid [j]).1) cid [j]).1) cid).count j
        = 1) := by
  have hcid : c.id = cid := getCandidate_some_id _ _ _ h
  constructor
  · intro hnd
    rw [declineJobs_fst store cid ids c h,
      getDeclined_update store cid c
        { c with declined_job_ids := addDeclines c.declined_job_ids ids } h hcid]
    exact addDeclines_nodup ids _ hnd
  · intro hcnt
    have h1 : getCandidate ((declineJobs store cid [j]).1) cid
        = some { c with declined_job_ids := addDeclines c.declined_job_ids [j] } := by
      rw [declineJobs_fst store cid [j] c h]
      exact getCandidate_updateCandidate store cid c _ h hcid
    rw [declineJobs_fst _ cid [j] _ h1,
      getDeclined_update _ cid _
        { c with declined_job_ids :=
            addDeclines (addDeclines c.declined_job_ids [j]) [j] } h1 hcid]
    have hc1 : (addDeclines c.declined_job_ids [j]).count j = 1 :=
      addDeclines_count_single _ _ hcnt
    have hmem : j ∈ addDeclines c.declined_job_ids [j] :=
      List.count_pos_iff.mp (by omega)
    rw [addDeclines_of_mem _ _ hmem]
    exact hc1

theorem c9_witness :
    ((getDeclinedJobIds
        ((declineJobs [mkCand "c9" [] [] [] 0 [] []] "c9" ["jA", "jB"]).1)
        "c9").Nodup)
    ∧ ((getDeclinedJobIds
        ((declineJobs ((declineJobs [mkCand "c9" [] [] [] 0 [] []] "c9" ["jA"]).1)
          "c9" ["jA"]).1) "c9").count "jA" = 1) :=
  ⟨(c9_decline_idempotent [mkCand "c9" [] [] [] 0 [] []] "c9" "jA" ["jA", "jB"]
      (mkCand "c9" [] [] [] 0 [] []) (by decide)).1 (by decide),
   (c9_decline_idempotent [mkCand "c9" [] [] [] 0 [] []] "c9" "jA" ["jA"]
      (mkCand "c9" [] [] [] 0 [] []) (by decide)).2 (by decide)⟩

/-! ## C6 -/

theorem updateCandidate_self (store : List Candidate) (c : Candidate)
    (hn : (store.map Candidate.id).Nodup) (h : getCandidate store c.id = some c) :
    updateCandidate store c = store := by
  have hmem := getCandidate_mem _ _ _ h
  have hany : store.any (fun x => x.id == c.id) = true :=
    List.any_eq_true.mpr ⟨c, hmem, by simp⟩
  rw [updateCandidate, if_pos hany]
  have hinj := List.inj_on_of_nodup_map hn
  rw [show store.map (fun x => if x.id == c.id then c else x) = store.map id from
    List.map_congr_left (fun x hx => ?_), List.map_id]
  by_cases hxc : x.id = c.id
  · simp only [hxc, beq_self_eq_true, if_true, id]
    exact (hinj hx hmem hxc).symm
  · simp [hxc]

theorem updatePreferences_empty (store : List Candidate) (cid : String)
    (c : Candidate) (hn : (store.map Candidate.id).Nodup)
    (h : getCandidate store cid = some c) :
    updatePreferences store cid emptyPrefUpdate = .ok (store, true, []) := by
  have hcid : c.id = cid := getCandidate_some_id _ _ _ h
  rw [updatePreferences, h]
  dsimp only [emptyPrefUpdate, updatePrefsTail]
  rw [updateCandidate_self store c hn (by rwa [hcid])]
  rfl

/-- C6 (amended): `update_preferences` with an empty change set leaves the
stored candidate state unaltered and changes no fields — but it returns
success = true with an empty updated-fields list, not a success=false result;
and in general every field not provided in the update is unchanged on the
stored candidate (partial-update semantics), the provided ones being
overwritten. -/
theorem c6_update_preferences_frame (store : List Candidate) (cid : String)
    (u : PrefUpdate) (c : Candidate)
    (hn : (store.map Candidate.id).Nodup)
    (h : getCandidate store cid = some c) :
    updatePreferences store cid emptyPrefUpdate = .ok (store, true, [])
    ∧ ∀ out, updatePreferences store cid u = .ok out →
        ∃ c', getCandidate out.1 cid = some c'
          ∧ c'.id = c.id ∧ c'.name = c.name ∧ c'.email = c.email
          ∧ c'.summary = c.summary
          ∧ c'.years_experience = c.years_experience
          ∧ c'.current_title = c.current_title
          ∧ c'.max_salary = c.max_salary
          ∧ c'.declined_job_ids = c.declined_job_ids
          ∧ c'.accepted_job_id = c.accepted_job_id
          ∧ c'.min_salary = u.min_salary.getD c.min_salary
          ∧ c'.preferred_titles = u.preferred_titles.getD c.preferred_titles
          ∧ (u.preferred_location_types = none →
              c'.preferred_location_types = c.preferred_location_types)
          ∧ c'.preferred_industries = u.preferred_industries.getD c.preferred_industries
          ∧ c'.preferred_locations = u.preferred_locations.getD c.preferred_locations
          ∧ c'.skills = u.skills.getD c.skills := by
  have hcid : c.id = cid := getCandidate_some_id _ _ _ h
  refine ⟨updatePreferences_empty store cid c hn h, ?_⟩
  intro out hup
  rw [updatePreferences, h] at hup
  rcases u with ⟨ms, pt, plt, pi, pl, sk⟩
  rcases plt with - | lts
  · rcases ms with - | msv <;> rcases pt with - | ptv <;>
      rcases pi with - | piv <;> rcases pl with - | plv <;> rcases sk with - | skv <;>
      (dsimp only [updatePrefsTail] at hup; cases hup;
        exact ⟨_, getCandidate_updateCandidate store cid c _ h hcid,
          rfl, rfl, rfl, rfl, rfl, rfl, rfl, rfl, rfl, rfl, rfl,
          fun _ => rfl, rfl, rfl, rfl⟩)
  · dsimp only at hup
    rcases hmp : lts.mapM parseLocationType with - | parsed
    · rw [hmp] at hup
      exact absurd hup (by simp)
    · rw [hmp] at hup
      rcases ms with - | msv <;> rcases pt with - | ptv <;>
        rcases pi with - | piv <;> rcases pl with - | plv <;> rcases sk with - | skv <;>
        (dsimp only [updatePrefsTail] at hup; cases hup;
          exact ⟨_, getCandidate_updateCandidate store cid c _ h hcid,
            rfl, rfl, rfl, rfl, rfl, rfl, rfl, rfl, rfl, rfl, rfl,
            fun hx => Option.noConfusion hx, rfl, rfl, rfl⟩)

/-- C6 counterexample: the empty update on an existing candidate returns
`(True, [])` — the success flag is true, not the claimed
success=false-equivalent result (the no-change outcome is only visible in the
empty updated-fields list). -/
theorem c6_counterexample :
    updatePreferences [mkCand "c6" [] [] [] 0 [] []] "c6" emptyPrefUpdate
      = .ok ([mkCand "c6" [] [] [] 0 [] []], true, [])
    ∧ true ≠ false := by
  refine ⟨by rfl, by decide⟩

theorem c6_witness :
    updatePreferences [mkCand "c6w" [] [] [] 0 [] []] "c6w" emptyPrefUpdate
      = .ok ([mkCand "c6w" [] [] [] 0 [] []], true, [])
    ∧ ∃ c', getCandidate
        (updatePreferences [mkCand "c6w" [] [] [] 0 [] []] "c6w"
          ⟨some 5, none, none, none, none, none⟩).toOption.get!.1 "c6w" = some c'
      ∧ c'.min_salary = 5 ∧ c'.skills = (mkCand "c6w" [] [] [] 0 [] []).skills := by
  have base := c6_update_preferences_frame [mkCand "c6w" [] [] [] 0 [] []] "c6w"
    ⟨some 5, none, none, none, none, none⟩ (mkCand "c6w" [] [] [] 0 [] [])
    (by decide) (by decide)
  refine ⟨base.1, ?_⟩
  obtain ⟨c', hg, -, -, -, -, -, -, -, -, -, hms, -, -, -, -, hsk⟩ :=
    base.2 ([{ mkCand "c6w" [] [] [] 0 [] [] with min_salary := 5 }], true,
      ["min_salary"]) (by rfl)
  exact ⟨c', hg, hms.trans rfl, hsk.trans rfl⟩

/-! ## C7 -/

theorem candidate_of_update (store : List Candidate) (cid : String)
    (c y c' : Candidate)
    (hc' : getCandidate (updateCandidate store y) cid = some c')
    (h : getCandidate store cid = some c) (hy : y.id = cid) : c' = y := by
  rw [getCandidate_updateCandidate store cid c y h hy] at hc'
  exact (Option.some.inj hc').symm

/-- C7 (amended): the skip-the-invalid-value policy holds for the route
layer's `persist_preference_changes`, whose location-type conversion is
wrapped in `try/except ValueError`: an unknown location-type string leaves the
stored location-type preference unchanged while the other provided fields
(e.g. min_salary) are still applied, and the operation returns normally.  The
service-level `update_preferences`, however, does not catch the `ValueError`
from `LocationType(lt)` and raises (see the counterexample). -/
theorem c7_persist_skips_invalid (store : List Candidate) (cid : String)
    (ch : PersistChanges) (c : Candidate) (lts : List String)
    (h : getCandidate store cid = some c)
    (hl : ch.preferred_location_types = some lts)
    (hbad : lts.mapM parseLocationType = none) :
    (∀ c', getCandidate (persistPreferenceChanges store cid ch).1 cid = some c' →
      c'.preferred_location_types = c.preferred_location_types
      ∧ c'.min_salary = ch.min_salary.getD c.min_salary)
    ∧ persistPreferenceChanges [mkCand "c7" [] [] [] 0 [] []] "c7"
        ⟨some 120000, some ["mars"], none, none, none⟩
        = ([{ mkCand "c7" [] [] [] 0 [] [] with min_salary := 120000 }], true) := by
  have hcid : c.id = cid := getCandidate_some_id _ _ _ h
  constructor
  · intro c' hc'
    rcases ch with ⟨ms, plt, pt, pi, ask⟩
    dsimp only at hl
    subst hl
    rcases ms with - | msv <;> rcases pt with - | ptv <;> rcases pi with - | piv <;>
      rcases ask with - | askv <;>
      (rw [persistPreferenceChanges] at hc';
       rw [if_neg (by simp [PersistChanges.isEmpty])] at hc';
       rw [h] at hc';
       dsimp only at hc';
       rw [hbad] at hc';
       dsimp only at hc';
       first
        | (have hcy := candidate_of_update store cid c _ c' hc' h hcid;
           subst hcy; exact ⟨rfl, rfl⟩)
        | (rw [h] at hc'; cases hc'; exact ⟨rfl, rfl⟩)
        | (split_ifs at hc' <;> (try dsimp only at hc') <;>
            first
              | (have hcy := candidate_of_update store cid c _ c' hc' h hcid;
                 subst hcy; exact ⟨rfl, rfl⟩)
              | (rw [h] at hc'; cases hc'; exact ⟨rfl, rfl⟩)
              | (exfalso; simp_all; done)))
  · rfl

theorem c7_witness :
    ({ mkCand "c7w" [] [] [] 0 [] [] with
        min_salary := 120000 }).preferred_location_types
      = (mkCand "c7w" [] [] [] 0 [] []).preferred_location_types
    ∧ ({ mkCand "c7w" [] [] [] 0 [] [] with min_salary := 120000 }).min_salary
      = (PersistChanges.mk (some 120000) (some ["mars"]) none none
          none).min_salary.getD (mkCand "c7w" [] [] [] 0 [] []).min_salary :=
  (c7_persist_skips_invalid [mkCand "c7w" [] [] [] 0 [] []] "c7w"
      ⟨some 120000, some ["mars"], none, none, none⟩
      (mkCand "c7w" [] [] [] 0 [] []) ["mars"] (by decide) rfl (by decide)).1
    { mkCand "c7w" [] [] [] 0 [] [] with min_salary := 120000 } (by decide)

/-- C7 counterexample: the same update at the service layer —
`update_preferences` with an unknown location-type string "mars" and a
min_salary change — raises `ValueError` from `LocationType(lt)` (no
`try/except` at candidate_service.py lines 142-146): the operation fails
instead of skipping the invalid value. -/
theorem c7_counterexample :
    updatePreferences [mkCand "c7" [] [] [] 0 [] []] "c7"
      ⟨some 120000, none, some ["mars"], none, none, none⟩
      = .error .valueError := by
  rfl

end VectorAI
